import Mathlib

/-!
# Verification of the snapshot-diff computation engine

Shallow embedding of the computational core of the nitro-type-leaderboard
repository.  The file `main.js` contains two variants of the page script:

* the first variant defines `fetchJSONFlexible`, `renderChanges24_fromAPI`
  (the two-source daily diff) and `computeEvent` (the four-source event
  computation);
* the second variant defines `renderChanges24` and `loadEventFourFiles`
  (an alternative four-source event computation).

JavaScript numbers are modelled by rationals (`ℚ`).  A raw field value as
seen by `safeNumber` is modelled by `JsVal`: either absent, a value that is
not a finite number (NaN, plus or minus Infinity, or a non-numeric value
coercing to NaN), or a finite number.  All arithmetic after `safeNumber`
sanitisation is exact over `ℚ`; the `Number.isFinite` re-checks that the
code performs on derived quantities are vacuously true in this model and
are noted where they occur in the source.
-/

/-- A JavaScript value in a numeric field position, as consumed by
`safeNumber` (main.js line 537). -/
inductive JsVal where
  | missing
  | nonFinite
  | num (q : ℚ)
deriving DecidableEq

/-- main.js lines 537-540: `Number(x)` sanitisation, defaulting to 0 for
anything that is not a finite number (all call sites in the modelled code
use the default `dv = 0`). -/
def safeNumber : JsVal → ℚ
  | JsVal.num q => q
  | _ => 0

/-- main.js lines 541-543: `clamp(min, v, max) = Math.max(min, Math.min(max, v))`. -/
def clamp (lo v hi : ℚ) : ℚ := max lo (min hi v)

/-- One record of the lean ("API") feed.  `username` models
`String(o.username || '')` (a missing field behaves like the empty
string at every use site: it is skipped both by the indexer and by
`pickFirstNonEmpty`).  Optional strings model possibly-absent fields. -/
structure ApiRecord where
  username : String
  displayName : Option String
  teamTag : Option String
  typed : JsVal
  errs : JsVal
  played : JsVal
  avgWpm : JsVal
  lifetimeRaces : JsVal
  highWpm : JsVal
deriving DecidableEq

/-- One record of the rich ("Data") feed. -/
structure DataRecord where
  username : String
  tag : Option String
  racesPlayed : JsVal
  nitrosUsed : JsVal
deriving DecidableEq

/-- `String.prototype.toLowerCase`, modelled character-wise (the behaviour
of `String.toLower`, implemented structurally over the character list). -/
def lowerStr (s : String) : String := ⟨s.data.map Char.toLower⟩

/-- `String.prototype.trim`: strip leading and trailing whitespace
(implemented structurally over the character list). -/
def trimStr (s : String) : String :=
  ⟨((s.data.dropWhile Char.isWhitespace).reverse.dropWhile Char.isWhitespace).reverse⟩

/-- Key extraction: `String(keyFn(item) || '').toLowerCase()` (main.js line 143). -/
def keyOfName (u : String) : String := lowerStr u

/-- Field access through an optional record (`apiN?.field`, or field access
on the `|| \x7b\x7d` default object): a missing record yields a missing field. -/
def numField {α : Type} (o : Option α) (f : α → JsVal) : JsVal :=
  match o with
  | some r => f r
  | none => JsVal.missing

/-- main.js lines 140-148 (`indexByKey`), read back as a lookup function:
keys are lowercased usernames, empty keys are skipped, and on duplicate
keys the later record wins (`out[k] = item` overwrites), hence the lookup
finds the last matching record. -/
def indexByKey {α : Type} (l : List α) (f : α → String) : String → Option α :=
  fun k =>
    if k = "" then none
    else l.reverse.find? fun r => keyOfName (f r) == k

/-- The key set of `indexByKey l f` (`Object.keys`), as a list possibly
containing duplicates; the union below deduplicates.  Only membership and
uniqueness of the deduplicated union are used by the theorems, so the
precise JavaScript key-enumeration order is irrelevant here. -/
def indexKeys {α : Type} (l : List α) (f : α → String) : List String :=
  (l.map fun r => keyOfName (f r)).filter fun k => k ≠ ""

/-- main.js lines 149-154: first candidate that is present and has a
non-blank string image; otherwise the fallback. -/
def pickFirstNonEmpty (candidates : List (Option String)) (fallback : String) : String :=
  match candidates with
  | [] => fallback
  | none :: rest => pickFirstNonEmpty rest fallback
  | some v :: rest => if trimStr v ≠ "" then v else pickFirstNonEmpty rest fallback

/-- First-occurrence-preserving deduplication: the iteration order of a
JavaScript `Set` built by spreading key lists (main.js lines 270 and
367-370).  Only membership and uniqueness are used by the theorems. -/
def dedupFirst : List String → List String
  | [] => []
  | k :: rest => k :: (dedupFirst rest).filter fun x => x ≠ k

/-- JavaScript truthiness chain `a.x || b.x || ''` over strings: first
non-empty (without trimming) candidate wins. -/
def firstTruthy (candidates : List (Option String)) : String :=
  match candidates with
  | [] => ""
  | none :: rest => firstTruthy rest
  | some v :: rest => if v ≠ "" then v else firstTruthy rest

/-- Sorting comparator `(a, b) => key(b) - key(a)`: descending by a
rational key.  JavaScript `Array.prototype.sort` with this comparator is a
(stable) sort by the key in descending order; the development only relies
on sortedness and permutation, both independent of tie order. -/
def byDescRat {α : Type} (key : α → ℚ) (a b : α) : Prop := key b ≤ key a

instance {α : Type} (key : α → ℚ) : DecidableRel (byDescRat key) :=
  fun a b => inferInstanceAs (Decidable (key b ≤ key a))

instance {α : Type} (key : α → ℚ) : IsTotal α (byDescRat key) :=
  ⟨fun a b => le_total (key b) (key a)⟩

instance {α : Type} (key : α → ℚ) : IsTrans α (byDescRat key) :=
  ⟨fun _ _ _ h1 h2 => le_trans h2 h1⟩

/-! ## Configuration (main.js lines 34-40 and 578-588) -/

/-- `CONFIG.MAX_24H_RACES` / `MAX_24H_RACES`: anomaly cutoff for daily race deltas. -/
def MAX_24H_RACES : ℚ := 2600

/-- `CONFIG.AVG_RACE_SECONDS = 28.47`, used only in the chars fallback. -/
def AVG_RACE_SECONDS : ℚ := (2847 : ℚ) / 100

/-- `CONFIG.BAKE_ACCURACY_INTO_WPM = false`. -/
def BAKE_ACCURACY_INTO_WPM : Bool := false

/-- Second variant, line 588: `WPM_METHOD = 'weighted'`. -/
def WPM_METHOD : String := "weighted"

/-! ## Two-source daily variant (`renderChanges24_fromAPI`, main.js lines 266-314) -/

/-- One entry of the daily `diffs` list (main.js lines 283-286). -/
structure Diff24 where
  slug : String
  dRaces : ℚ
  dTop : ℚ
  dViews : ℚ
  dNitro : ℚ
deriving DecidableEq

/-- The union of index keys of the two API snapshots (main.js line 270). -/
def unionKeys24 (apiBeforeArr apiNowArr : List ApiRecord) : List String :=
  dedupFirst (indexKeys apiBeforeArr ApiRecord.username ++ indexKeys apiNowArr ApiRecord.username)

/-- main.js lines 274-286: the candidate diff entry for one key.  `b` and
`n` are the index entries, defaulting to the empty object, whose numeric
fields sanitise to 0; `dViews` and `dNitro` are hard-coded 0. -/
def mkDiff24 (apiBeforeArr apiNowArr : List ApiRecord) (k : String) : Diff24 :=
  let b := indexByKey apiBeforeArr ApiRecord.username k
  let n := indexByKey apiNowArr ApiRecord.username k
  { slug := firstTruthy [n.map ApiRecord.username, b.map ApiRecord.username]
    dRaces := safeNumber (numField n ApiRecord.lifetimeRaces) -
      safeNumber (numField b ApiRecord.lifetimeRaces)
    dTop := safeNumber (numField n ApiRecord.highWpm) -
      safeNumber (numField b ApiRecord.highWpm)
    dViews := 0
    dNitro := 0 }

/-- main.js lines 266-290: the computed (and sorted) daily diff list.  The
push condition is line 282: `dRaces !== 0 && dRaces < CONFIG.MAX_24H_RACES`. -/
def computeChanges24 (apiBeforeArr apiNowArr : List ApiRecord) : List Diff24 :=
  let diffs := (unionKeys24 apiBeforeArr apiNowArr).filterMap fun k =>
    let d := mkDiff24 apiBeforeArr apiNowArr k
    if d.dRaces ≠ 0 ∧ d.dRaces < MAX_24H_RACES then some d else none
  List.insertionSort (byDescRat Diff24.dRaces) diffs

/-! ## Four-source event computation (`computeEvent`, main.js lines 361-452) -/

/-- One output row of `computeEvent` (main.js lines 432-439). -/
structure EventRow where
  slug : String
  tag : String
  displayName : String
  dRaces : ℚ
  wpm : Option ℚ
  acc : Option ℚ
  points : Option ℚ
  nitrosDelta : Option ℚ
deriving DecidableEq

/-- main.js lines 386-389: race delta, preferring the Data difference when
both Data records exist and it is non-zero, else the API difference when
both API records exist, else 0. -/
def eventDRaces (apiB apiN : Option ApiRecord) (dataB dataN : Option DataRecord) : ℚ :=
  let dataDelta : ℚ :=
    match dataB, dataN with
    | some b, some n => safeNumber n.racesPlayed - safeNumber b.racesPlayed
    | _, _ => 0
  let apiDelta : ℚ :=
    match apiB, apiN with
    | some b, some n => safeNumber n.lifetimeRaces - safeNumber b.lifetimeRaces
    | _, _ => 0
  if (dataB.isSome ∧ dataN.isSome) ∧ dataDelta ≠ 0 then dataDelta else apiDelta

/-- main.js line 394: nitro delta from the Data feed only. -/
def eventNitrosDelta (dataB dataN : Option DataRecord) : Option ℚ :=
  match dataB, dataN with
  | some b, some n => some (max 0 (safeNumber n.nitrosUsed - safeNumber b.nitrosUsed))
  | _, _ => none

/-- main.js line 401: `typedDelta = Math.max(0, safeNumber(apiN.typed) - safeNumber(apiB.typed))`. -/
def typedDeltaOf (b n : ApiRecord) : ℚ := max 0 (safeNumber n.typed - safeNumber b.typed)

/-- main.js line 402: `errsDelta = Math.max(0, safeNumber(apiN.errs) - safeNumber(apiB.errs))`. -/
def errsDeltaOf (b n : ApiRecord) : ℚ := max 0 (safeNumber n.errs - safeNumber b.errs)

/-- main.js lines 403-404: accuracy is only assigned when `typedDelta > 0`,
otherwise it remains `null`. -/
def accOf (b n : ApiRecord) : Option ℚ :=
  if 0 < typedDeltaOf b n then
    some (clamp 0 (100 * (1 - errsDeltaOf b n / typedDeltaOf b n)) 100)
  else none

/-- main.js line 407: `playedDelta = safeNumber(apiN.played) - safeNumber(apiB.played)`. -/
def playedDeltaOf (b n : ApiRecord) : ℚ := safeNumber n.played - safeNumber b.played

/-- main.js line 409: the weighted numerator
`avgWpm_now * played_now - avgWpm_before * played_before`. -/
def weightedNumOf (b n : ApiRecord) : ℚ :=
  safeNumber n.avgWpm * safeNumber n.played - safeNumber b.avgWpm * safeNumber b.played

/-- main.js lines 408-425: the WPM value.  In the weighted branch the
source also tests `!Number.isFinite(wpm)`, which cannot hold for a
rational quotient with non-zero denominator and is therefore dropped. -/
def wpmOf (b n : ApiRecord) (method : String) (dRaces : ℚ) (acc : Option ℚ) : ℚ :=
  if method = "weighted" ∧ 0 < playedDeltaOf b n then
    let w := weightedNumOf b n / playedDeltaOf b n
    if w < 0 then 0 else w
  else if 0 < typedDeltaOf b n ∧ 0 < dRaces then
    let minutes := (AVG_RACE_SECONDS / 60) * dRaces
    let est := (typedDeltaOf b n / 5) / minutes
    if method = "chars" ∧ BAKE_ACCURACY_INTO_WPM = true then
      match acc with
      | some a => est * (a / 100)
      | none => est
    else est
  else safeNumber n.avgWpm

/-- main.js lines 397-430: the `(wpm, acc, points)` triple; all three stay
`null` without both API records (`hasAPI`), and `points` is assigned
exactly under `wpm != null && acc != null`. -/
def eventApiMetrics (apiB apiN : Option ApiRecord) (method : String) (dRaces : ℚ) :
    Option ℚ × Option ℚ × Option ℚ :=
  match apiB, apiN with
  | some b, some n =>
    let acc := accOf b n
    let wpm : Option ℚ := some (wpmOf b n method dRaces acc)
    let points : Option ℚ :=
      match wpm, acc with
      | some w, some a => some (100 + (w / 2) * (a / 100))
      | _, _ => none
    (wpm, acc, points)
  | _, _ => (none, none, none)

/-- main.js line 382: identifier resolution. -/
def eventSlug (k : String) (apiB apiN : Option ApiRecord)
    (dataB dataN : Option DataRecord) : String :=
  pickFirstNonEmpty [dataN.map DataRecord.username, dataB.map DataRecord.username,
    apiN.map ApiRecord.username, apiB.map ApiRecord.username] k

/-- main.js line 383: team tag resolution. -/
def eventTag (apiB apiN : Option ApiRecord) (dataB dataN : Option DataRecord) : String :=
  pickFirstNonEmpty [dataN.bind DataRecord.tag, dataB.bind DataRecord.tag,
    apiN.bind ApiRecord.teamTag, apiB.bind ApiRecord.teamTag] ""

/-- main.js line 384: display-name resolution. -/
def eventDisplayName (k : String) (apiB apiN : Option ApiRecord)
    (dataB dataN : Option DataRecord) : String :=
  let slug := eventSlug k apiB apiN dataB dataN
  pickFirstNonEmpty [apiN.bind ApiRecord.displayName, apiB.bind ApiRecord.displayName,
    dataN.map DataRecord.username, dataB.map DataRecord.username, some slug] slug

/-- The row pushed for one key when the activity filter passes
(main.js lines 432-439). -/
def mkEventRow (k : String) (apiB apiN : Option ApiRecord)
    (dataB dataN : Option DataRecord) (method : String) : EventRow :=
  let dRaces := eventDRaces apiB apiN dataB dataN
  let m := eventApiMetrics apiB apiN method dRaces
  { slug := eventSlug k apiB apiN dataB dataN
    tag := eventTag apiB apiN dataB dataN
    displayName := eventDisplayName k apiB apiN dataB dataN
    dRaces := dRaces
    wpm := m.1
    acc := m.2.1
    points := m.2.2
    nitrosDelta := eventNitrosDelta dataB dataN }

/-- main.js lines 373-440: the per-key body of `computeEvent`'s loop;
line 391 (`if (dRaces <= 0) return`) is the activity filter. -/
def computeEventRow (k : String) (apiB apiN : Option ApiRecord)
    (dataB dataN : Option DataRecord) (method : String) : Option EventRow :=
  if eventDRaces apiB apiN dataB dataN ≤ 0 then none
  else some (mkEventRow k apiB apiN dataB dataN method)

/-- main.js lines 367-370: union of all index keys of the four snapshots. -/
def unionKeysEvent (apiBeforeArr apiNowArr : List ApiRecord)
    (dataBeforeArr dataNowArr : List DataRecord) : List String :=
  dedupFirst (indexKeys apiBeforeArr ApiRecord.username ++ indexKeys apiNowArr ApiRecord.username ++
    indexKeys dataBeforeArr DataRecord.username ++ indexKeys dataNowArr DataRecord.username)

/-- main.js lines 445-451: the result record of `computeEvent`. -/
structure EventResult where
  beforeCount : ℕ
  nowCount : ℕ
  dataBeforeCount : ℕ
  dataNowCount : ℕ
  rows : List EventRow
deriving DecidableEq

/-- main.js lines 361-452: `computeEvent`. -/
def computeEvent (apiBeforeArr apiNowArr : List ApiRecord)
    (dataBeforeArr dataNowArr : List DataRecord) (method : String) : EventResult :=
  let rows := (unionKeysEvent apiBeforeArr apiNowArr dataBeforeArr dataNowArr).filterMap fun k =>
    computeEventRow k (indexByKey apiBeforeArr ApiRecord.username k)
      (indexByKey apiNowArr ApiRecord.username k)
      (indexByKey dataBeforeArr DataRecord.username k)
      (indexByKey dataNowArr DataRecord.username k) method
  { beforeCount := apiBeforeArr.length
    nowCount := apiNowArr.length
    dataBeforeCount := dataBeforeArr.length
    dataNowCount := dataNowArr.length
    rows := List.insertionSort (byDescRat EventRow.dRaces) rows }

/-! ## Four-source event computation, second variant
(`loadEventFourFiles`, main.js lines 1010-1118) -/

/-- One output row of `loadEventFourFiles` (main.js lines 1086-1094); all
metric fields are plain numbers (never null) in this variant. -/
structure LoadEventRow where
  slug : String
  tag : String
  displayName : String
  dRaces : ℚ
  wpm : ℚ
  acc : ℚ
  points : ℚ
  mistakesPerRace : ℚ
  nitrosDelta : ℚ
deriving DecidableEq

/-- main.js lines 1054-1056: race delta of the second variant.  Missing
records behave as the empty object, so both differences are computed with
missing counts sanitised to 0; `Number.isFinite(racesDeltaData)` always
holds over ℚ and is dropped. -/
def loadDRaces (apiB apiN : Option ApiRecord) (dataB dataN : Option DataRecord) : ℚ :=
  let racesDeltaData := safeNumber (numField dataN DataRecord.racesPlayed) -
    safeNumber (numField dataB DataRecord.racesPlayed)
  let racesDeltaAPI := safeNumber (numField apiN ApiRecord.lifetimeRaces) -
    safeNumber (numField apiB ApiRecord.lifetimeRaces)
  if racesDeltaData ≠ 0 then racesDeltaData else racesDeltaAPI

/-- main.js line 1060. -/
def loadTypedDelta (apiB apiN : Option ApiRecord) : ℚ :=
  max 0 (safeNumber (numField apiN ApiRecord.typed) - safeNumber (numField apiB ApiRecord.typed))

/-- main.js line 1061. -/
def loadErrsDelta (apiB apiN : Option ApiRecord) : ℚ :=
  max 0 (safeNumber (numField apiN ApiRecord.errs) - safeNumber (numField apiB ApiRecord.errs))

/-- main.js line 1064: accuracy of the second variant — always a number;
when `typedDelta` is not positive the error ratio is taken to be 0, which
makes the accuracy `clamp(0, 100, 100) = 100`. -/
def loadAcc (apiB apiN : Option ApiRecord) : ℚ :=
  clamp 0 (100 * (1 - (if 0 < loadTypedDelta apiB apiN then
    loadErrsDelta apiB apiN / loadTypedDelta apiB apiN else 0))) 100

/-- main.js line 1067. -/
def loadPlayedDelta (apiB apiN : Option ApiRecord) : ℚ :=
  safeNumber (numField apiN ApiRecord.played) - safeNumber (numField apiB ApiRecord.played)

/-- main.js lines 1068-1075: weighted WPM with fallback to the current
snapshot average, then a floor at 0 (the `Number.isFinite` part of the
line 1075 test is vacuous over ℚ). -/
def loadWpm (apiB apiN : Option ApiRecord) : ℚ :=
  let wpm :=
    if WPM_METHOD = "weighted" ∧ 0 < loadPlayedDelta apiB apiN then
      (safeNumber (numField apiN ApiRecord.avgWpm) * safeNumber (numField apiN ApiRecord.played) -
       safeNumber (numField apiB ApiRecord.avgWpm) * safeNumber (numField apiB ApiRecord.played)) /
        loadPlayedDelta apiB apiN
    else safeNumber (numField apiN ApiRecord.avgWpm)
  if wpm < 0 then 0 else wpm

/-- The row pushed by the second variant for one key (main.js lines 1049-1094). -/
def mkLoadEventRow (apiB apiN : Option ApiRecord) (dataB dataN : Option DataRecord) :
    LoadEventRow :=
  let slug := pickFirstNonEmpty [dataN.map DataRecord.username, dataB.map DataRecord.username,
    apiN.map ApiRecord.username, apiB.map ApiRecord.username] ""
  let dRaces := loadDRaces apiB apiN dataB dataN
  let acc := loadAcc apiB apiN
  let wpm := loadWpm apiB apiN
  { slug := slug
    tag := pickFirstNonEmpty [dataN.bind DataRecord.tag, dataB.bind DataRecord.tag,
      apiN.bind ApiRecord.teamTag, apiB.bind ApiRecord.teamTag] ""
    displayName := pickFirstNonEmpty [apiN.bind ApiRecord.displayName,
      apiB.bind ApiRecord.displayName, dataN.map DataRecord.username,
      dataB.map DataRecord.username, some slug] ""
    dRaces := dRaces
    wpm := wpm
    acc := acc
    points := 100 + (wpm / 2) * (acc / 100)
    mistakesPerRace := loadErrsDelta apiB apiN / max 1 dRaces
    nitrosDelta := max 0 (safeNumber (numField dataN DataRecord.nitrosUsed) -
      safeNumber (numField dataB DataRecord.nitrosUsed)) }

/-- main.js lines 1043-1095: per-key body of the second variant's loop;
line 1057 is the activity filter. -/
def loadEventRow (apiB apiN : Option ApiRecord) (dataB dataN : Option DataRecord) :
    Option LoadEventRow :=
  if loadDRaces apiB apiN dataB dataN ≤ 0 then none
  else some (mkLoadEventRow apiB apiN dataB dataN)

/-- Result of `loadEventFourFiles` (post-fetch computation, main.js
lines 1018-1098), including the early return on an empty BEFORE feed
(lines 1026-1028). -/
structure LoadEventResult where
  beforeCount : ℕ
  nowCount : ℕ
  rows : List LoadEventRow
deriving DecidableEq

/-- main.js lines 1010-1098: `loadEventFourFiles`, modelled from the point
where the four snapshots have been fetched and normalised into lists. -/
def loadEventCompute (apiBefore apiNow : List ApiRecord)
    (dataBefore dataNow : List DataRecord) : LoadEventResult :=
  if apiBefore.length = 0 then
    { beforeCount := 0, nowCount := apiNow.length, rows := [] }
  else
    let rows := (unionKeysEvent apiBefore apiNow dataBefore dataNow).filterMap fun k =>
      loadEventRow (indexByKey apiBefore ApiRecord.username k)
        (indexByKey apiNow ApiRecord.username k)
        (indexByKey dataBefore DataRecord.username k)
        (indexByKey dataNow DataRecord.username k)
    { beforeCount := apiBefore.length
      nowCount := apiNow.length
      rows := List.insertionSort (byDescRat LoadEventRow.dRaces) rows }

/-! ## Snapshot loader (`fetchJSONFlexible`, main.js lines 96-125)

The network part (lines 97-102) is outside the model; the text-processing
part (lines 103-124) is modelled over an abstract JSON parser
`parse : String → Option J` standing for `JSON.parse` (`some` on success,
`none` when it throws).  The `throw` on line 119 escapes to the caller
because the enclosing catch (lines 121-124) only absorbs it when
`allowEmpty` is set, which cannot happen there (line 118 already
returned); the model folds the two layers together. -/

/-- The four shapes of a successful load: a single parsed document, a
non-empty array of parsed NDJSON lines, the empty snapshot object
`\x7b racers: [] \x7d`, and the bare empty array `[]` returned for blank
content without `allowEmpty` (line 105). -/
inductive LoadOutcome (J : Type) where
  | doc (j : J)
  | ndjson (items : List J)
  | emptyRacers
  | emptyArr
deriving DecidableEq

instance {e a : Type} [DecidableEq e] [DecidableEq a] : DecidableEq (Except e a) := fun x y =>
  match x, y with
  | Except.ok u, Except.ok v =>
    if h : u = v then isTrue (by rw [h]) else isFalse (by intro hc; cases hc; exact h rfl)
  | Except.error u, Except.error v =>
    if h : u = v then isTrue (by rw [h]) else isFalse (by intro hc; cases hc; exact h rfl)
  | Except.ok u, Except.error v => isFalse (by intro hc; cases hc)
  | Except.error u, Except.ok v => isFalse (by intro hc; cases hc)

/-- main.js line 112: split on line breaks, trim each line, drop blanks.
The source splits on the regex CR?LF; splitting on LF alone is equivalent
here because each fragment is trimmed immediately afterwards. -/
def splitCharsOnNL : List Char → List (List Char)
  | [] => [[]]
  | c :: cs =>
    let rest := splitCharsOnNL cs
    if c = '\n' then [] :: rest
    else
      match rest with
      | [] => [[c]]
      | h :: t => (c :: h) :: t

def ndLines (trimmed : String) : List String :=
  (((splitCharsOnNL trimmed.data).map fun l => trimStr ⟨l⟩).filter fun l => l ≠ "")

/-- main.js lines 103-124: the flexible JSON/NDJSON interpretation of the
fetched text. -/
def fetchFlexible {J : Type} (parse : String → Option J) (text : String)
    (allowEmpty : Bool) : Except Unit (LoadOutcome J) :=
  let trimmed := trimStr text
  if trimmed = "" then
    Except.ok (if allowEmpty then LoadOutcome.emptyRacers else LoadOutcome.emptyArr)
  else
    match parse trimmed with
    | some j => Except.ok (LoadOutcome.doc j)
    | none =>
      let arr := (ndLines trimmed).filterMap parse
      if 0 < arr.length then Except.ok (LoadOutcome.ndjson arr)
      else if allowEmpty then Except.ok LoadOutcome.emptyRacers
      else Except.error ()

/-! ## Specification-side definition and concrete input builders -/

/-- The race-delta rule exactly as the specification words it (spec 4.4
rule 1): prefer the rich-feed difference when both rich-feed records exist
and the difference is non-zero; otherwise the lean-feed difference when
both lean-feed records exist; otherwise 0.  A pair `some (b, n)` stands
for "both records exist, with before-count b and now-count n". -/
def specRaceDelta (richPair leanPair : Option (ℚ × ℚ)) : ℚ :=
  match richPair with
  | some p =>
    if p.2 - p.1 ≠ 0 then p.2 - p.1
    else
      match leanPair with
      | some q => q.2 - q.1
      | none => 0
  | none =>
    match leanPair with
    | some q => q.2 - q.1
    | none => 0

/-- Concrete API-feed record builder for witnesses and counterexamples. -/
def apiIn (u : String) (typed errs played avgWpm lifetime : ℚ) : ApiRecord :=
  { username := u, displayName := none, teamTag := none,
    typed := JsVal.num typed, errs := JsVal.num errs, played := JsVal.num played,
    avgWpm := JsVal.num avgWpm, lifetimeRaces := JsVal.num lifetime,
    highWpm := JsVal.missing }

/-- Concrete Data-feed record builder for witnesses and counterexamples. -/
def dataIn (u : String) (races nitros : ℚ) : DataRecord :=
  { username := u, tag := none, racesPlayed := JsVal.num races,
    nitrosUsed := JsVal.num nitros }

/-! ## Structural lemmas about the shared plumbing -/

theorem dedupFirst_nodup (l : List String) : (dedupFirst l).Nodup := by
  induction l with
  | nil => exact List.nodup_nil
  | cons k rest ih =>
    refine List.Nodup.cons ?_ (List.Nodup.filter _ ih)
    intro hmem
    have := List.of_mem_filter hmem
    simp at this

theorem mem_dedupFirst {x : String} {l : List String} : x ∈ dedupFirst l ↔ x ∈ l := by
  induction l with
  | nil => simp [dedupFirst]
  | cons k rest ih =>
    by_cases hx : x = k
    · subst hx
      simp [dedupFirst]
    · simp only [dedupFirst, List.mem_cons, List.mem_filter]
      constructor
      · rintro (h | ⟨h, _⟩)
        · exact absurd h hx
        · exact Or.inr (ih.mp h)
      · rintro (h | h)
        · exact absurd h hx
        · exact Or.inr ⟨ih.mpr h, by simpa using hx⟩

theorem mem_indexKeys {α : Type} {l : List α} {f : α → String} {k : String} :
    k ∈ indexKeys l f ↔ k ≠ "" ∧ ∃ r ∈ l, keyOfName (f r) = k := by
  simp only [indexKeys, List.mem_filter, List.mem_map, decide_eq_true_eq]
  tauto

theorem indexByKey_mem {α : Type} {l : List α} {f : α → String} {k : String} {r : α}
    (h : indexByKey l f k = some r) : r ∈ l := by
  unfold indexByKey at h
  split at h
  · exact absurd h (by simp)
  · exact List.mem_reverse.mp (List.mem_of_find?_eq_some h)

theorem indexByKey_key {α : Type} {l : List α} {f : α → String} {k : String} {r : α}
    (h : indexByKey l f k = some r) : keyOfName (f r) = k ∧ k ≠ "" := by
  unfold indexByKey at h
  split at h
  · exact absurd h (by simp)
  · have := List.find?_some h
    simp only [beq_iff_eq] at this
    exact ⟨this, by assumption⟩

theorem indexByKey_isSome_iff {α : Type} {l : List α} {f : α → String} {k : String} :
    (indexByKey l f k).isSome ↔ k ≠ "" ∧ ∃ r ∈ l, keyOfName (f r) = k := by
  unfold indexByKey
  split
  · simp_all
  · rw [List.find?_isSome]
    simp_all [List.mem_reverse]

/-! ## Membership characterisations of the computed row lists -/

theorem mem_computeChanges24 {apiBeforeArr apiNowArr : List ApiRecord} {d : Diff24} :
    d ∈ computeChanges24 apiBeforeArr apiNowArr ↔
    ∃ k ∈ unionKeys24 apiBeforeArr apiNowArr,
      mkDiff24 apiBeforeArr apiNowArr k = d ∧ d.dRaces ≠ 0 ∧ d.dRaces < MAX_24H_RACES := by
  unfold computeChanges24
  rw [List.mem_insertionSort, List.mem_filterMap]
  constructor
  · rintro ⟨k, hk, hsome⟩
    refine ⟨k, hk, ?_⟩
    have hsome2 : (if (mkDiff24 apiBeforeArr apiNowArr k).dRaces ≠ 0 ∧
        (mkDiff24 apiBeforeArr apiNowArr k).dRaces < MAX_24H_RACES then
          some (mkDiff24 apiBeforeArr apiNowArr k) else none) = some d := hsome
    split at hsome2
    · cases hsome2
      exact ⟨rfl, by assumption⟩
    · cases hsome2
  · rintro ⟨k, hk, heq, h1, h2⟩
    refine ⟨k, hk, ?_⟩
    show (if (mkDiff24 apiBeforeArr apiNowArr k).dRaces ≠ 0 ∧
        (mkDiff24 apiBeforeArr apiNowArr k).dRaces < MAX_24H_RACES then
          some (mkDiff24 apiBeforeArr apiNowArr k) else none) = some d
    rw [if_pos]
    · rw [heq]
    · rw [heq]
      exact ⟨h1, h2⟩

theorem computeEventRow_eq_some_iff {k : String} {apiB apiN : Option ApiRecord}
    {dataB dataN : Option DataRecord} {method : String} {row : EventRow} :
    computeEventRow k apiB apiN dataB dataN method = some row ↔
    0 < eventDRaces apiB apiN dataB dataN ∧ row = mkEventRow k apiB apiN dataB dataN method := by
  unfold computeEventRow
  split
  · rename_i h
    constructor
    · intro hc
      cases hc
    · rintro ⟨h1, _⟩
      exact absurd h1 (not_lt.mpr h)
  · rename_i h
    rw [not_le] at h
    simp only [Option.some.injEq]
    exact ⟨fun he => ⟨h, he.symm⟩, fun hp => hp.2.symm⟩

theorem mem_computeEvent_rows {apiBeforeArr apiNowArr : List ApiRecord}
    {dataBeforeArr dataNowArr : List DataRecord} {method : String} {row : EventRow} :
    row ∈ (computeEvent apiBeforeArr apiNowArr dataBeforeArr dataNowArr method).rows ↔
    ∃ k ∈ unionKeysEvent apiBeforeArr apiNowArr dataBeforeArr dataNowArr,
      computeEventRow k (indexByKey apiBeforeArr ApiRecord.username k)
        (indexByKey apiNowArr ApiRecord.username k)
        (indexByKey dataBeforeArr DataRecord.username k)
        (indexByKey dataNowArr DataRecord.username k) method = some row := by
  unfold computeEvent
  rw [List.mem_insertionSort, List.mem_filterMap]

theorem loadEventRow_eq_some_iff {apiB apiN : Option ApiRecord}
    {dataB dataN : Option DataRecord} {row : LoadEventRow} :
    loadEventRow apiB apiN dataB dataN = some row ↔
    0 < loadDRaces apiB apiN dataB dataN ∧ row = mkLoadEventRow apiB apiN dataB dataN := by
  unfold loadEventRow
  split
  · rename_i h
    constructor
    · intro hc
      cases hc
    · rintro ⟨h1, _⟩
      exact absurd h1 (not_lt.mpr h)
  · rename_i h
    rw [not_le] at h
    simp only [Option.some.injEq]
    exact ⟨fun he => ⟨h, he.symm⟩, fun hp => hp.2.symm⟩

theorem mem_loadEventCompute_rows {apiBefore apiNow : List ApiRecord}
    {dataBefore dataNow : List DataRecord} {row : LoadEventRow}
    (hne : apiBefore.length ≠ 0) :
    row ∈ (loadEventCompute apiBefore apiNow dataBefore dataNow).rows ↔
    ∃ k ∈ unionKeysEvent apiBefore apiNow dataBefore dataNow,
      loadEventRow (indexByKey apiBefore ApiRecord.username k)
        (indexByKey apiNow ApiRecord.username k)
        (indexByKey dataBefore DataRecord.username k)
        (indexByKey dataNow DataRecord.username k) = some row := by
  unfold loadEventCompute
  rw [if_neg hne]
  rw [List.mem_insertionSort, List.mem_filterMap]

/-! ## Field projections and bounds -/

theorem mkEventRow_dRaces (k : String) (apiB apiN : Option ApiRecord)
    (dataB dataN : Option DataRecord) (method : String) :
    (mkEventRow k apiB apiN dataB dataN method).dRaces = eventDRaces apiB apiN dataB dataN := rfl

theorem mkEventRow_wpm (k : String) (apiB apiN : Option ApiRecord)
    (dataB dataN : Option DataRecord) (method : String) :
    (mkEventRow k apiB apiN dataB dataN method).wpm =
      (eventApiMetrics apiB apiN method (eventDRaces apiB apiN dataB dataN)).1 := rfl

theorem mkEventRow_acc (k : String) (apiB apiN : Option ApiRecord)
    (dataB dataN : Option DataRecord) (method : String) :
    (mkEventRow k apiB apiN dataB dataN method).acc =
      (eventApiMetrics apiB apiN method (eventDRaces apiB apiN dataB dataN)).2.1 := rfl

theorem mkEventRow_points (k : String) (apiB apiN : Option ApiRecord)
    (dataB dataN : Option DataRecord) (method : String) :
    (mkEventRow k apiB apiN dataB dataN method).points =
      (eventApiMetrics apiB apiN method (eventDRaces apiB apiN dataB dataN)).2.2 := rfl

theorem mkEventRow_nitrosDelta (k : String) (apiB apiN : Option ApiRecord)
    (dataB dataN : Option DataRecord) (method : String) :
    (mkEventRow k apiB apiN dataB dataN method).nitrosDelta = eventNitrosDelta dataB dataN := rfl

theorem mkLoadEventRow_dRaces (apiB apiN : Option ApiRecord)
    (dataB dataN : Option DataRecord) :
    (mkLoadEventRow apiB apiN dataB dataN).dRaces = loadDRaces apiB apiN dataB dataN := rfl

theorem mkLoadEventRow_acc (apiB apiN : Option ApiRecord)
    (dataB dataN : Option DataRecord) :
    (mkLoadEventRow apiB apiN dataB dataN).acc = loadAcc apiB apiN := rfl

theorem clamp_left_le (lo v hi : ℚ) : lo ≤ clamp lo v hi := le_max_left _ _

theorem clamp_le_right (lo v hi : ℚ) (h : lo ≤ hi) : clamp lo v hi ≤ hi :=
  max_le h (min_le_left _ _)

theorem AVG_RACE_SECONDS_pos : 0 < AVG_RACE_SECONDS := by norm_num [AVG_RACE_SECONDS]

theorem wpmOf_nonneg (b n : ApiRecord) (method : String) (dRaces : ℚ) (acc : Option ℚ)
    (hn : 0 ≤ safeNumber n.avgWpm) (hd : 0 < dRaces) :
    0 ≤ wpmOf b n method dRaces acc := by
  unfold wpmOf
  split
  · dsimp only
    split
    · exact le_refl 0
    · rename_i hneg
      exact le_of_not_lt hneg
  · split
    · rename_i hcond
      rw [if_neg (fun hcon => by simpa [BAKE_ACCURACY_INTO_WPM] using hcon.2)]
      have hmin : 0 < (AVG_RACE_SECONDS / 60) * dRaces :=
        mul_pos (div_pos AVG_RACE_SECONDS_pos (by norm_num)) hd
      have htd : (0:ℚ) ≤ typedDeltaOf b n / 5 :=
        div_nonneg (le_max_left _ _) (by norm_num)
      exact div_nonneg htd (le_of_lt hmin)
    · exact hn

/-! ## Claim theorems -/

/-- C2 (amended).  The race delta of the four-source event computation
`computeEvent` follows the claimed rule exactly: the rich-feed (Data)
difference is used when both rich-feed records exist and the difference is
non-zero; otherwise the lean-feed (API) difference when both lean-feed
records exist; otherwise 0.  The second variant `loadEventFourFiles`
instead behaves as if both record pairs always existed, with a missing
record's counters sanitised to 0: its rich-feed difference (so computed)
is used whenever it is non-zero, even when only one rich-feed record
exists, and its lean-feed fallback likewise does not require both
lean-feed records. -/
theorem C2_race_delta (apiB apiN : Option ApiRecord) (dataB dataN : Option DataRecord) :
    eventDRaces apiB apiN dataB dataN =
      specRaceDelta
        (match dataB, dataN with
         | some b, some n => some (safeNumber b.racesPlayed, safeNumber n.racesPlayed)
         | _, _ => none)
        (match apiB, apiN with
         | some b, some n => some (safeNumber b.lifetimeRaces, safeNumber n.lifetimeRaces)
         | _, _ => none) ∧
    loadDRaces apiB apiN dataB dataN =
      specRaceDelta
        (some (safeNumber (numField dataB DataRecord.racesPlayed),
          safeNumber (numField dataN DataRecord.racesPlayed)))
        (some (safeNumber (numField apiB ApiRecord.lifetimeRaces),
          safeNumber (numField apiN ApiRecord.lifetimeRaces))) := by
  constructor
  · cases dataB <;> cases dataN <;> cases apiB <;> cases apiN <;>
      simp [eventDRaces, specRaceDelta]
  · simp only [loadDRaces, specRaceDelta]

/-- C4 (confirmed).  In the two-source daily computation
`renderChanges24_fromAPI`, a race delta at or above the anomaly threshold
(2600) is excluded from the output: the candidate entry of such a key is
not in the diff list; a delta that is non-zero and strictly below the
threshold is kept. -/
theorem C4_anomaly_cutoff (apiBeforeArr apiNowArr : List ApiRecord) (k : String)
    (hk : k ∈ unionKeys24 apiBeforeArr apiNowArr) :
    (MAX_24H_RACES ≤ (mkDiff24 apiBeforeArr apiNowArr k).dRaces →
      mkDiff24 apiBeforeArr apiNowArr k ∉ computeChanges24 apiBeforeArr apiNowArr) ∧
    ((mkDiff24 apiBeforeArr apiNowArr k).dRaces ≠ 0 ∧
        (mkDiff24 apiBeforeArr apiNowArr k).dRaces < MAX_24H_RACES →
      mkDiff24 apiBeforeArr apiNowArr k ∈ computeChanges24 apiBeforeArr apiNowArr) := by
  constructor
  · intro hge hmem
    rcases mem_computeChanges24.mp hmem with ⟨k2, -, -, -, hlt⟩
    exact absurd hlt (not_lt.mpr hge)
  · rintro ⟨h1, h2⟩
    exact mem_computeChanges24.mpr ⟨k, hk, rfl, h1, h2⟩

/-- C6 (confirmed).  In `computeEvent`, every emitted row's point score is
determined by its speed and accuracy fields: it is
`100 + (speed / 2) * (accuracy / 100)` exactly when both are non-null, and
null otherwise. -/
theorem C6_points_formula (k : String) (apiB apiN : Option ApiRecord)
    (dataB dataN : Option DataRecord) (method : String) (row : EventRow)
    (h : computeEventRow k apiB apiN dataB dataN method = some row) :
    row.points =
      match row.wpm, row.acc with
      | some w, some a => some (100 + (w / 2) * (a / 100))
      | _, _ => none := by
  obtain ⟨-, hrow⟩ := computeEventRow_eq_some_iff.mp h
  subst hrow
  rw [mkEventRow_points, mkEventRow_wpm, mkEventRow_acc]
  cases apiB with
  | none => cases apiN <;> simp [eventApiMetrics]
  | some b =>
    cases apiN with
    | none => simp [eventApiMetrics]
    | some n =>
      simp only [eventApiMetrics]

/-- C10 (confirmed).  In every row emitted by `computeEvent`: the speed is
non-null exactly when both API records exist; the accuracy is non-null
exactly when both API records exist and the typed delta is positive; the
point score is non-null exactly when both speed and accuracy are; the
nitro delta is non-null exactly when both Data records exist. -/
theorem C10_nullability (k : String) (apiB apiN : Option ApiRecord)
    (dataB dataN : Option DataRecord) (method : String) (row : EventRow)
    (h : computeEventRow k apiB apiN dataB dataN method = some row) :
    (row.wpm.isSome ↔ (apiB.isSome ∧ apiN.isSome)) ∧
    (row.acc.isSome ↔ (apiB.isSome ∧ apiN.isSome ∧
      0 < max 0 (safeNumber (numField apiN ApiRecord.typed) -
        safeNumber (numField apiB ApiRecord.typed)))) ∧
    (row.points.isSome ↔ (row.wpm.isSome ∧ row.acc.isSome)) ∧
    (row.nitrosDelta.isSome ↔ (dataB.isSome ∧ dataN.isSome)) := by
  obtain ⟨-, hrow⟩ := computeEventRow_eq_some_iff.mp h
  subst hrow
  refine ⟨?_, ?_, ?_, ?_⟩
  · rw [mkEventRow_wpm]
    cases apiB <;> cases apiN <;> simp [eventApiMetrics]
  · rw [mkEventRow_acc]
    cases apiB with
    | none => cases apiN <;> simp [eventApiMetrics]
    | some b =>
      cases apiN with
      | none => simp [eventApiMetrics]
      | some n =>
        simp only [eventApiMetrics, Option.isSome_some, true_and]
        unfold accOf
        split_ifs with hc
        · simpa [typedDeltaOf, numField] using hc
        · simp only [Option.isSome_none, Bool.false_eq_true, false_iff]
          simpa [typedDeltaOf, numField] using hc
  · rw [mkEventRow_points, mkEventRow_wpm, mkEventRow_acc]
    cases apiB with
    | none => cases apiN <;> simp [eventApiMetrics]
    | some b =>
      cases apiN with
      | none => simp [eventApiMetrics]
      | some n =>
        simp only [eventApiMetrics]
        cases haccv : accOf b n <;> simp [haccv]
  · rw [mkEventRow_nitrosDelta]
    cases dataB <;> cases dataN <;> simp [eventNitrosDelta]

/-- C7 (confirmed).  The row assembler of `computeEvent` unions the
(case-insensitively lowercased, non-empty) identifiers across all four
snapshots: the key list is duplicate-free and contains exactly the keys
appearing in at least one snapshot; the output rows are (a permutation of)
one invocation of the per-identifier computation per key; and the output
is sorted descending by race delta. -/
theorem C7_row_assembler (apiBeforeArr apiNowArr : List ApiRecord)
    (dataBeforeArr dataNowArr : List DataRecord) (method : String) :
    (unionKeysEvent apiBeforeArr apiNowArr dataBeforeArr dataNowArr).Nodup ∧
    (∀ k, k ∈ unionKeysEvent apiBeforeArr apiNowArr dataBeforeArr dataNowArr ↔
      (k ≠ "" ∧ ((∃ r ∈ apiBeforeArr, keyOfName r.username = k) ∨
        (∃ r ∈ apiNowArr, keyOfName r.username = k) ∨
        (∃ r ∈ dataBeforeArr, keyOfName r.username = k) ∨
        (∃ r ∈ dataNowArr, keyOfName r.username = k)))) ∧
    ((computeEvent apiBeforeArr apiNowArr dataBeforeArr dataNowArr method).rows.Perm
      ((unionKeysEvent apiBeforeArr apiNowArr dataBeforeArr dataNowArr).filterMap fun k =>
        computeEventRow k (indexByKey apiBeforeArr ApiRecord.username k)
          (indexByKey apiNowArr ApiRecord.username k)
          (indexByKey dataBeforeArr DataRecord.username k)
          (indexByKey dataNowArr DataRecord.username k) method)) ∧
    (computeEvent apiBeforeArr apiNowArr dataBeforeArr dataNowArr method).rows.Pairwise
      fun a b => b.dRaces ≤ a.dRaces := by
  refine ⟨dedupFirst_nodup _, ?_, ?_, ?_⟩
  · intro k
    rw [unionKeysEvent, mem_dedupFirst]
    simp only [List.mem_append, mem_indexKeys, and_or_left, or_assoc]
  · exact List.perm_insertionSort _ _
  · exact List.sorted_insertionSort (byDescRat EventRow.dRaces) _

/-- C3 (amended).  The activity filter.  Both four-source event variants
exclude every entity whose race delta is at most 0.  In `computeEvent`,
every union key with positive race delta produces a row; in the second
variant `loadEventFourFiles` this holds only when the API before-snapshot
is non-empty — with an empty API before-feed the early return
(main.js lines 1026-1028) produces no rows at all, whatever the deltas.
In the two-source daily variant only a race delta of exactly 0 (or one at
or above the anomaly threshold) excludes an entity: every output entry
has a non-zero delta below the threshold, and every union key whose delta
is non-zero and below the threshold produces an entry, including entities
with strictly negative deltas. -/
theorem C3_activity_filter (apiBeforeArr apiNowArr : List ApiRecord)
    (dataBeforeArr dataNowArr : List DataRecord) (method : String) :
    (∀ row ∈ (computeEvent apiBeforeArr apiNowArr dataBeforeArr dataNowArr method).rows,
      0 < row.dRaces) ∧
    (∀ k ∈ unionKeysEvent apiBeforeArr apiNowArr dataBeforeArr dataNowArr,
      0 < eventDRaces (indexByKey apiBeforeArr ApiRecord.username k)
          (indexByKey apiNowArr ApiRecord.username k)
          (indexByKey dataBeforeArr DataRecord.username k)
          (indexByKey dataNowArr DataRecord.username k) →
      ∃ row ∈ (computeEvent apiBeforeArr apiNowArr dataBeforeArr dataNowArr method).rows,
        computeEventRow k (indexByKey apiBeforeArr ApiRecord.username k)
          (indexByKey apiNowArr ApiRecord.username k)
          (indexByKey dataBeforeArr DataRecord.username k)
          (indexByKey dataNowArr DataRecord.username k) method = some row) ∧
    (∀ row ∈ (loadEventCompute apiBeforeArr apiNowArr dataBeforeArr dataNowArr).rows,
      0 < row.dRaces) ∧
    (apiBeforeArr.length ≠ 0 →
      ∀ k ∈ unionKeysEvent apiBeforeArr apiNowArr dataBeforeArr dataNowArr,
      0 < loadDRaces (indexByKey apiBeforeArr ApiRecord.username k)
          (indexByKey apiNowArr ApiRecord.username k)
          (indexByKey dataBeforeArr DataRecord.username k)
          (indexByKey dataNowArr DataRecord.username k) →
      ∃ row ∈ (loadEventCompute apiBeforeArr apiNowArr dataBeforeArr dataNowArr).rows,
        loadEventRow (indexByKey apiBeforeArr ApiRecord.username k)
          (indexByKey apiNowArr ApiRecord.username k)
          (indexByKey dataBeforeArr DataRecord.username k)
          (indexByKey dataNowArr DataRecord.username k) = some row) ∧
    (apiBeforeArr.length = 0 →
      (loadEventCompute apiBeforeArr apiNowArr dataBeforeArr dataNowArr).rows = []) ∧
    (∀ d ∈ computeChanges24 apiBeforeArr apiNowArr,
      d.dRaces ≠ 0 ∧ d.dRaces < MAX_24H_RACES) ∧
    (∀ k ∈ unionKeys24 apiBeforeArr apiNowArr,
      (mkDiff24 apiBeforeArr apiNowArr k).dRaces ≠ 0 ∧
        (mkDiff24 apiBeforeArr apiNowArr k).dRaces < MAX_24H_RACES →
      mkDiff24 apiBeforeArr apiNowArr k ∈ computeChanges24 apiBeforeArr apiNowArr) := by
  refine ⟨?_, ?_, ?_, ?_, ?_, ?_, ?_⟩
  · intro row hrow
    obtain ⟨k, -, hsome⟩ := mem_computeEvent_rows.mp hrow
    obtain ⟨hpos, heq⟩ := computeEventRow_eq_some_iff.mp hsome
    rw [heq, mkEventRow_dRaces]
    exact hpos
  · intro k hk hpos
    refine ⟨mkEventRow k (indexByKey apiBeforeArr ApiRecord.username k)
        (indexByKey apiNowArr ApiRecord.username k)
        (indexByKey dataBeforeArr DataRecord.username k)
        (indexByKey dataNowArr DataRecord.username k) method, ?_, ?_⟩
    · exact mem_computeEvent_rows.mpr ⟨k, hk, computeEventRow_eq_some_iff.mpr ⟨hpos, rfl⟩⟩
    · exact computeEventRow_eq_some_iff.mpr ⟨hpos, rfl⟩
  · intro row hrow
    by_cases hlen : apiBeforeArr.length = 0
    · exfalso
      unfold loadEventCompute at hrow
      rw [if_pos hlen] at hrow
      simp at hrow
    · obtain ⟨k, -, hsome⟩ := (mem_loadEventCompute_rows hlen).mp hrow
      obtain ⟨hpos, heq⟩ := loadEventRow_eq_some_iff.mp hsome
      rw [heq, mkLoadEventRow_dRaces]
      exact hpos
  · intro hlen k hk hpos
    refine ⟨mkLoadEventRow (indexByKey apiBeforeArr ApiRecord.username k)
        (indexByKey apiNowArr ApiRecord.username k)
        (indexByKey dataBeforeArr DataRecord.username k)
        (indexByKey dataNowArr DataRecord.username k), ?_, ?_⟩
    · exact (mem_loadEventCompute_rows hlen).mpr ⟨k, hk, loadEventRow_eq_some_iff.mpr ⟨hpos, rfl⟩⟩
    · exact loadEventRow_eq_some_iff.mpr ⟨hpos, rfl⟩
  · intro hlen
    unfold loadEventCompute
    rw [if_pos hlen]
  · intro d hd
    obtain ⟨k, -, -, h1, h2⟩ := mem_computeChanges24.mp hd
    exact ⟨h1, h2⟩
  · intro k hk hc
    exact mem_computeChanges24.mpr ⟨k, hk, rfl, hc.1, hc.2⟩

/-- C5 (amended).  Accuracy from typed/error deltas: in `computeEvent`
(with both API records present) the accuracy of an emitted row is
`clamp(0, 100 * (1 - errsDelta / typedDelta), 100)` when `typedDelta > 0`
and null when `typedDelta = 0`.  In the second variant
`loadEventFourFiles` the accuracy is never null: the error ratio is taken
as 0 when `typedDelta` is not positive, producing accuracy 100 (not an
absent value). -/
theorem C5_accuracy (k : String) (b n : ApiRecord) (dataB dataN : Option DataRecord)
    (method : String) :
    (∀ row, computeEventRow k (some b) (some n) dataB dataN method = some row →
      row.acc = if 0 < typedDeltaOf b n then
        some (clamp 0 (100 * (1 - errsDeltaOf b n / typedDeltaOf b n)) 100) else none) ∧
    (∀ row, loadEventRow (some b) (some n) dataB dataN = some row →
      row.acc = clamp 0 (100 * (1 - (if 0 < typedDeltaOf b n then
        errsDeltaOf b n / typedDeltaOf b n else 0))) 100) := by
  constructor
  · intro row h
    obtain ⟨-, hrow⟩ := computeEventRow_eq_some_iff.mp h
    rw [hrow, mkEventRow_acc]
    rfl
  · intro row h
    obtain ⟨-, hrow⟩ := loadEventRow_eq_some_iff.mp h
    rw [hrow, mkLoadEventRow_acc]
    rfl

/-- C1 (amended).  Weighted speed in `computeEvent` (both API records
present, method "weighted"): when `playedDelta > 0` the speed is the
weighted quotient, floored at 0 when the quotient is negative (the source
also re-checks finiteness, which is vacuous over ℚ); when
`playedDelta ≤ 0` the fallback is NOT `now.avgWpm` in general: with
`typedDelta > 0` it is the characters-based estimate
`(typedDelta / 5) / ((28.47 / 60) * dRaces)`, and only with
`typedDelta ≤ 0` is it the snapshot value `now.avgWpm` (un-floored). -/
theorem C1_weighted_speed (k : String) (b n : ApiRecord)
    (dataB dataN : Option DataRecord) (row : EventRow)
    (h : computeEventRow k (some b) (some n) dataB dataN "weighted" = some row) :
    (0 < playedDeltaOf b n →
      row.wpm = some (if weightedNumOf b n / playedDeltaOf b n < 0 then 0
        else weightedNumOf b n / playedDeltaOf b n)) ∧
    (playedDeltaOf b n ≤ 0 → 0 < typedDeltaOf b n →
      row.wpm = some ((typedDeltaOf b n / 5) / ((AVG_RACE_SECONDS / 60) * row.dRaces))) ∧
    (playedDeltaOf b n ≤ 0 → typedDeltaOf b n ≤ 0 →
      row.wpm = some (safeNumber n.avgWpm)) := by
  obtain ⟨hpos, hrow⟩ := computeEventRow_eq_some_iff.mp h
  have hwpm : row.wpm = some (wpmOf b n "weighted"
      (eventDRaces (some b) (some n) dataB dataN) (accOf b n)) := by
    rw [hrow, mkEventRow_wpm]
    rfl
  have hdr : row.dRaces = eventDRaces (some b) (some n) dataB dataN := by
    rw [hrow, mkEventRow_dRaces]
  refine ⟨?_, ?_, ?_⟩
  · intro hpd
    rw [hwpm]
    unfold wpmOf
    rw [if_pos ⟨rfl, hpd⟩]
  · intro hpd htd
    rw [hwpm]
    unfold wpmOf
    rw [if_neg (fun hcon => absurd hcon.2 (not_lt.mpr hpd)),
      if_pos ⟨htd, hpos⟩,
      if_neg (fun hcon => by simpa [BAKE_ACCURACY_INTO_WPM] using hcon.2), hdr]
  · intro hpd htd
    rw [hwpm]
    unfold wpmOf
    rw [if_neg (fun hcon => absurd hcon.2 (not_lt.mpr hpd)),
      if_neg (fun hcon => absurd hcon.1 (not_lt.mpr htd))]

/-- C9 (amended).  Output invariants of `computeEvent`, for arbitrary
(possibly missing or non-finite) inputs: every emitted row has a strictly
positive race delta, a non-null accuracy lies in [0, 100], and a non-null
nitro delta is non-negative.  A non-null speed is non-negative PROVIDED
every now-feed record's sanitised `avgWpm` is non-negative: the snapshot
fallback passes `now.avgWpm` through without flooring, so a negative
`avgWpm` input reaches the output (see the counterexample).  Over ℚ no
NaN or infinite value exists; the `safeNumber` sanitisation maps every
non-finite input to 0 before any arithmetic. -/
theorem C9_row_invariants (apiBeforeArr apiNowArr : List ApiRecord)
    (dataBeforeArr dataNowArr : List DataRecord) (method : String)
    (hAvg : ∀ r ∈ apiNowArr, 0 ≤ safeNumber r.avgWpm) (row : EventRow)
    (hrow : row ∈ (computeEvent apiBeforeArr apiNowArr dataBeforeArr dataNowArr method).rows) :
    0 < row.dRaces ∧
    (match row.wpm with | some w => 0 ≤ w | none => True) ∧
    (match row.acc with | some a => 0 ≤ a ∧ a ≤ 100 | none => True) ∧
    (match row.nitrosDelta with | some q => 0 ≤ q | none => True) := by
  obtain ⟨k, -, hsome⟩ := mem_computeEvent_rows.mp hrow
  obtain ⟨hpos, heq⟩ := computeEventRow_eq_some_iff.mp hsome
  subst heq
  refine ⟨hpos, ?_, ?_, ?_⟩
  · rw [mkEventRow_wpm]
    cases hB : indexByKey apiBeforeArr ApiRecord.username k with
    | none => simp [eventApiMetrics]
    | some rb =>
      cases hN : indexByKey apiNowArr ApiRecord.username k with
      | none => simp [eventApiMetrics]
      | some rn =>
        simp only [eventApiMetrics]
        rw [hB, hN] at hpos
        exact wpmOf_nonneg rb rn method _ _ (hAvg rn (indexByKey_mem hN)) hpos
  · rw [mkEventRow_acc]
    cases indexByKey apiBeforeArr ApiRecord.username k with
    | none => simp [eventApiMetrics]
    | some rb =>
      cases indexByKey apiNowArr ApiRecord.username k with
      | none => simp [eventApiMetrics]
      | some rn =>
        simp only [eventApiMetrics]
        unfold accOf
        split_ifs
        · exact ⟨clamp_left_le _ _ _, clamp_le_right _ _ _ (by norm_num)⟩
        · trivial
  · rw [mkEventRow_nitrosDelta]
    cases dataBeforeArr2 : indexByKey dataBeforeArr DataRecord.username k with
    | none => simp [eventNitrosDelta]
    | some db =>
      cases indexByKey dataNowArr DataRecord.username k with
      | none => simp [eventNitrosDelta]
      | some dn =>
        simp only [eventNitrosDelta]
        exact le_max_left _ _

/-- C8 (amended).  The flexible loader on content that is non-blank after
trimming and does not parse as a single JSON document: if at least one
trimmed non-blank line parses, the list of parsed lines is returned
(malformed lines are skipped without failing); if no line parses, the
loader fails with a parse error when allow-missing is false and returns
the empty snapshot when allow-missing is true.  (Whitespace-only content
is handled earlier, by the blank-content branch, and never reaches the
parse-failure path: it yields the bare empty array even without
allow-missing — see the counterexample.) -/
theorem C8_loader {J : Type} (parse : String → Option J) (text : String) (allowEmpty : Bool)
    (htrim : trimStr text ≠ "") (hdoc : parse (trimStr text) = none) :
    fetchFlexible parse text allowEmpty =
      if 0 < ((ndLines (trimStr text)).filterMap parse).length then
        Except.ok (LoadOutcome.ndjson ((ndLines (trimStr text)).filterMap parse))
      else if allowEmpty then Except.ok LoadOutcome.emptyRacers
      else Except.error () := by
  simp only [fetchFlexible]
  rw [if_neg htrim, hdoc]

/-! ## Evaluation helpers for concrete inputs -/

theorem mkDiff24_singleton_dRaces (b n : ApiRecord) (k : String)
    (hb : indexByKey [b] ApiRecord.username k = some b)
    (hn : indexByKey [n] ApiRecord.username k = some n) :
    (mkDiff24 [b] [n] k).dRaces =
      safeNumber n.lifetimeRaces - safeNumber b.lifetimeRaces := by
  simp [mkDiff24, hb, hn, numField]

/-! ## Counterexamples -/

/-- C1 counterexample.  With both API records present and method
"weighted", take before = (typed 0, played 10, avgWpm 50, lifetime 0) and
now = (typed 1000, played 10, avgWpm 50, lifetime 5): the played delta is
0 (not positive), so the claim predicts the fallback speed `now.avgWpm`
(= 50, unaffected by the floor at 0); `computeEvent`'s per-identifier
computation instead emits the characters-based estimate
(1000/5) / ((28.47/60) * 5) = 80000/949 (about 84.3). -/
theorem C1_counterexample :
    playedDeltaOf (apiIn "a" 0 0 10 50 0) (apiIn "a" 1000 0 10 50 5) ≤ 0 ∧
    (computeEventRow "a" (some (apiIn "a" 0 0 10 50 0)) (some (apiIn "a" 1000 0 10 50 5))
        none none "weighted").map EventRow.wpm = some (some (80000 / 949)) ∧
    safeNumber (apiIn "a" 1000 0 10 50 5).avgWpm = 50 ∧ (80000 / 949 : ℚ) ≠ 50 := by
  have h : computeEventRow "a" (some (apiIn "a" 0 0 10 50 0)) (some (apiIn "a" 1000 0 10 50 5))
      none none "weighted" = some (mkEventRow "a" (some (apiIn "a" 0 0 10 50 0))
        (some (apiIn "a" 1000 0 10 50 5)) none none "weighted") :=
    computeEventRow_eq_some_iff.mpr ⟨by norm_num [eventDRaces, safeNumber, apiIn], rfl⟩
  refine ⟨by norm_num [playedDeltaOf, safeNumber, apiIn], ?_, by norm_num [safeNumber, apiIn],
    by norm_num⟩
  rw [h]
  simp only [Option.map_some', mkEventRow_wpm]
  norm_num [eventApiMetrics, wpmOf, accOf, typedDeltaOf, errsDeltaOf, playedDeltaOf,
    weightedNumOf, safeNumber, apiIn, eventDRaces, AVG_RACE_SECONDS, BAKE_ACCURACY_INTO_WPM,
    clamp]

/-- C2 counterexample.  In the second four-source variant
(`loadEventFourFiles`): the identifier has only a now-side rich-feed
record (racesPlayed 10, no rich-feed before record) and both lean-feed
records (lifetime 0 before, 3 now).  The claimed rule (both rich-feed
records must exist) predicts the lean-feed difference 3; the code's
defaulted rich-feed difference 10 - 0 = 10 is non-zero and wins. -/
theorem C2_counterexample :
    specRaceDelta none (some (0, 3)) = 3 ∧
    (loadEventRow (some (apiIn "a" 0 0 0 0 0)) (some (apiIn "a" 0 0 0 0 3))
        none (some (dataIn "a" 10 0))).map LoadEventRow.dRaces = some 10 ∧
    (10 : ℚ) ≠ 3 := by
  have h : loadEventRow (some (apiIn "a" 0 0 0 0 0)) (some (apiIn "a" 0 0 0 0 3))
      none (some (dataIn "a" 10 0)) = some (mkLoadEventRow (some (apiIn "a" 0 0 0 0 0))
        (some (apiIn "a" 0 0 0 0 3)) none (some (dataIn "a" 10 0))) :=
    loadEventRow_eq_some_iff.mpr
      ⟨by norm_num [loadDRaces, safeNumber, numField, apiIn, dataIn], rfl⟩
  refine ⟨by norm_num [specRaceDelta], ?_, by norm_num⟩
  rw [h]
  simp only [Option.map_some', mkLoadEventRow_dRaces]
  norm_num [loadDRaces, safeNumber, numField, apiIn, dataIn]

/-- C3 counterexample.  In the two-source daily computation, an entity
whose race delta is -5 (lifetime 10 before, 5 now) is NOT excluded: its
entry is in the output list, refuting "every entity whose computed race
delta is ≤ 0 is excluded from the output" for the daily variant (the
daily filter only drops delta = 0 and anomalies). -/
theorem C3_counterexample :
    (mkDiff24 [apiIn "a" 0 0 0 0 10] [apiIn "a" 0 0 0 0 5] "a").dRaces = -5 ∧
    mkDiff24 [apiIn "a" 0 0 0 0 10] [apiIn "a" 0 0 0 0 5] "a" ∈
      computeChanges24 [apiIn "a" 0 0 0 0 10] [apiIn "a" 0 0 0 0 5] ∧
    (-5 : ℚ) ≤ 0 := by
  have hd : (mkDiff24 [apiIn "a" 0 0 0 0 10] [apiIn "a" 0 0 0 0 5] "a").dRaces = -5 := by
    rw [mkDiff24_singleton_dRaces _ _ _ (by decide) (by decide)]
    norm_num [apiIn, safeNumber]
  refine ⟨hd, ?_, by norm_num⟩
  exact mem_computeChanges24.mpr ⟨"a", by decide, rfl, by rw [hd]; norm_num,
    by rw [hd]; norm_num [MAX_24H_RACES]⟩

/-- C5 counterexample.  In the second four-source variant
(`loadEventFourFiles`), with both lean-feed records present and equal
typed counters (typed delta 0), the emitted accuracy is the definite
number 100 — not an undefined/null "absence of signal" (and not 0). -/
theorem C5_counterexample :
    loadTypedDelta (some (apiIn "a" 500 10 10 50 0)) (some (apiIn "a" 500 10 10 50 5)) = 0 ∧
    (loadEventRow (some (apiIn "a" 500 10 10 50 0)) (some (apiIn "a" 500 10 10 50 5))
        none none).map LoadEventRow.acc = some 100 ∧
    (100 : ℚ) ≠ 0 := by
  have h : loadEventRow (some (apiIn "a" 500 10 10 50 0)) (some (apiIn "a" 500 10 10 50 5))
      none none = some (mkLoadEventRow (some (apiIn "a" 500 10 10 50 0))
        (some (apiIn "a" 500 10 10 50 5)) none none) :=
    loadEventRow_eq_some_iff.mpr
      ⟨by norm_num [loadDRaces, safeNumber, numField, apiIn], rfl⟩
  refine ⟨by norm_num [loadTypedDelta, safeNumber, numField, apiIn], ?_, by norm_num⟩
  rw [h]
  simp only [Option.map_some', mkLoadEventRow_acc]
  norm_num [loadAcc, loadTypedDelta, loadErrsDelta, safeNumber, numField, apiIn, clamp]

/-- C8 counterexample.  Whitespace-only content is non-empty and parses
neither as a single JSON document nor as any NDJSON line (there is no
non-blank line, so the parse function is never even consulted), yet with
allow-missing false the loader returns the bare empty array instead of
failing with a parse error: the blank-content branch fires after
trimming. -/
theorem C8_counterexample :
    " " ≠ "" ∧
    fetchFlexible (fun _ => (none : Option Nat)) " " false = Except.ok LoadOutcome.emptyArr :=
  ⟨by decide, rfl⟩

/-- C9 counterexample.  With a now-side API record whose `avgWpm` is -5
(and played delta 0, typed delta 0), the snapshot fallback passes the
negative value straight into the emitted row's speed field: the row for
this identifier has wpm = some (-5) < 0. -/
theorem C9_counterexample :
    (computeEventRow "a" (some (apiIn "a" 0 0 0 0 0)) (some (apiIn "a" 0 0 0 (-5) 3))
        none none "weighted").map EventRow.wpm = some (some (-5)) ∧
    ¬ (0 : ℚ) ≤ (-5 : ℚ) := by
  have h : computeEventRow "a" (some (apiIn "a" 0 0 0 0 0)) (some (apiIn "a" 0 0 0 (-5) 3))
      none none "weighted" = some (mkEventRow "a" (some (apiIn "a" 0 0 0 0 0))
        (some (apiIn "a" 0 0 0 (-5) 3)) none none "weighted") :=
    computeEventRow_eq_some_iff.mpr ⟨by norm_num [eventDRaces, safeNumber, apiIn], rfl⟩
  refine ⟨?_, by norm_num⟩
  rw [h]
  simp only [Option.map_some', mkEventRow_wpm]
  norm_num [eventApiMetrics, wpmOf, accOf, typedDeltaOf, errsDeltaOf, playedDeltaOf,
    weightedNumOf, safeNumber, apiIn, eventDRaces, BAKE_ACCURACY_INTO_WPM, clamp]

/-! ## Witnesses -/

/-- C1 witness: before = (played 10, avgWpm 80), now = (played 30,
avgWpm 100) gives played delta 20 > 0 and weighted speed
(100*30 - 80*10)/20 = 110. -/
theorem C1_witness :
    (mkEventRow "a" (some (apiIn "a" 0 0 10 80 0)) (some (apiIn "a" 1000 50 30 100 5))
      none none "weighted").wpm = some 110 := by
  have h : computeEventRow "a" (some (apiIn "a" 0 0 10 80 0))
      (some (apiIn "a" 1000 50 30 100 5)) none none "weighted" =
      some (mkEventRow "a" (some (apiIn "a" 0 0 10 80 0))
        (some (apiIn "a" 1000 50 30 100 5)) none none "weighted") :=
    computeEventRow_eq_some_iff.mpr ⟨by norm_num [eventDRaces, safeNumber, apiIn], rfl⟩
  have hw := (C1_weighted_speed "a" (apiIn "a" 0 0 10 80 0) (apiIn "a" 1000 50 30 100 5)
    none none _ h).1 (by norm_num [playedDeltaOf, safeNumber, apiIn])
  rw [hw]
  norm_num [weightedNumOf, playedDeltaOf, safeNumber, apiIn]

/-- C3 witness: a key with race delta -5 (non-zero and below the
threshold) produces an output entry in the daily computation. -/
theorem C3_witness :
    mkDiff24 [apiIn "a" 0 0 0 0 10] [apiIn "a" 0 0 0 0 5] "a" ∈
      computeChanges24 [apiIn "a" 0 0 0 0 10] [apiIn "a" 0 0 0 0 5] := by
  have hd : (mkDiff24 [apiIn "a" 0 0 0 0 10] [apiIn "a" 0 0 0 0 5] "a").dRaces = -5 := by
    rw [mkDiff24_singleton_dRaces _ _ _ (by decide) (by decide)]
    norm_num [apiIn, safeNumber]
  exact (C3_activity_filter [apiIn "a" 0 0 0 0 10] [apiIn "a" 0 0 0 0 5] [] []
    "weighted").2.2.2.2.2.2 "a" (by decide)
    ⟨by rw [hd]; norm_num, by rw [hd]; norm_num [MAX_24H_RACES]⟩

/-- C4 witness: with threshold 2600, a delta of exactly 2600 is excluded,
a delta of 2601 is excluded, and a delta of 100 is kept. -/
theorem C4_witness :
    mkDiff24 [apiIn "a" 0 0 0 0 0] [apiIn "a" 0 0 0 0 2600] "a" ∉
      computeChanges24 [apiIn "a" 0 0 0 0 0] [apiIn "a" 0 0 0 0 2600] ∧
    mkDiff24 [apiIn "b" 0 0 0 0 0] [apiIn "b" 0 0 0 0 2601] "b" ∉
      computeChanges24 [apiIn "b" 0 0 0 0 0] [apiIn "b" 0 0 0 0 2601] ∧
    mkDiff24 [apiIn "c" 0 0 0 0 0] [apiIn "c" 0 0 0 0 100] "c" ∈
      computeChanges24 [apiIn "c" 0 0 0 0 0] [apiIn "c" 0 0 0 0 100] := by
  have h1 : (mkDiff24 [apiIn "a" 0 0 0 0 0] [apiIn "a" 0 0 0 0 2600] "a").dRaces = 2600 := by
    rw [mkDiff24_singleton_dRaces _ _ _ (by decide) (by decide)]
    norm_num [apiIn, safeNumber]
  have h2 : (mkDiff24 [apiIn "b" 0 0 0 0 0] [apiIn "b" 0 0 0 0 2601] "b").dRaces = 2601 := by
    rw [mkDiff24_singleton_dRaces _ _ _ (by decide) (by decide)]
    norm_num [apiIn, safeNumber]
  have h3 : (mkDiff24 [apiIn "c" 0 0 0 0 0] [apiIn "c" 0 0 0 0 100] "c").dRaces = 100 := by
    rw [mkDiff24_singleton_dRaces _ _ _ (by decide) (by decide)]
    norm_num [apiIn, safeNumber]
  refine ⟨?_, ?_, ?_⟩
  · exact (C4_anomaly_cutoff [apiIn "a" 0 0 0 0 0] [apiIn "a" 0 0 0 0 2600] "a"
      (by decide)).1 (by rw [h1]; norm_num [MAX_24H_RACES])
  · exact (C4_anomaly_cutoff [apiIn "b" 0 0 0 0 0] [apiIn "b" 0 0 0 0 2601] "b"
      (by decide)).1 (by rw [h2]; norm_num [MAX_24H_RACES])
  · exact (C4_anomaly_cutoff [apiIn "c" 0 0 0 0 0] [apiIn "c" 0 0 0 0 100] "c"
      (by decide)).2 ⟨by rw [h3]; norm_num, by rw [h3]; norm_num [MAX_24H_RACES]⟩

/-- C5 witness: typed delta 1000 and errs delta 50 give accuracy
100 * (1 - 50/1000) = 95 in `computeEvent`. -/
theorem C5_witness :
    (mkEventRow "a" (some (apiIn "a" 0 0 10 80 0)) (some (apiIn "a" 1000 50 30 100 5))
      none none "weighted").acc = some 95 := by
  have h : computeEventRow "a" (some (apiIn "a" 0 0 10 80 0))
      (some (apiIn "a" 1000 50 30 100 5)) none none "weighted" =
      some (mkEventRow "a" (some (apiIn "a" 0 0 10 80 0))
        (some (apiIn "a" 1000 50 30 100 5)) none none "weighted") :=
    computeEventRow_eq_some_iff.mpr ⟨by norm_num [eventDRaces, safeNumber, apiIn], rfl⟩
  have ha := (C5_accuracy "a" (apiIn "a" 0 0 10 80 0) (apiIn "a" 1000 50 30 100 5)
    none none "weighted").1 _ h
  rw [ha, if_pos (by norm_num [typedDeltaOf, safeNumber, apiIn])]
  norm_num [typedDeltaOf, errsDeltaOf, safeNumber, apiIn, clamp]

/-- C6 witness: speed 110 and accuracy 95 give the point score
100 + (110/2) * (95/100) = 152.25 = 609/4. -/
theorem C6_witness :
    (mkEventRow "a" (some (apiIn "a" 0 0 10 80 0)) (some (apiIn "a" 1000 50 30 100 5))
      none none "weighted").points = some (609 / 4) := by
  have h : computeEventRow "a" (some (apiIn "a" 0 0 10 80 0))
      (some (apiIn "a" 1000 50 30 100 5)) none none "weighted" =
      some (mkEventRow "a" (some (apiIn "a" 0 0 10 80 0))
        (some (apiIn "a" 1000 50 30 100 5)) none none "weighted") :=
    computeEventRow_eq_some_iff.mpr ⟨by norm_num [eventDRaces, safeNumber, apiIn], rfl⟩
  have hw : (mkEventRow "a" (some (apiIn "a" 0 0 10 80 0)) (some (apiIn "a" 1000 50 30 100 5))
      none none "weighted").wpm = some 110 := by
    rw [mkEventRow_wpm]
    norm_num [eventApiMetrics, wpmOf, accOf, typedDeltaOf, errsDeltaOf, playedDeltaOf,
      weightedNumOf, safeNumber, apiIn, eventDRaces, BAKE_ACCURACY_INTO_WPM, clamp]
  have ha : (mkEventRow "a" (some (apiIn "a" 0 0 10 80 0)) (some (apiIn "a" 1000 50 30 100 5))
      none none "weighted").acc = some 95 := by
    rw [mkEventRow_acc]
    norm_num [eventApiMetrics, accOf, typedDeltaOf, errsDeltaOf, safeNumber, apiIn, clamp]
  rw [C6_points_formula "a" (some (apiIn "a" 0 0 10 80 0)) (some (apiIn "a" 1000 50 30 100 5))
    none none "weighted" _ h, hw, ha]
  norm_num

/-- C8 witness: content with two malformed lines around one parseable
line is loaded as the singleton array of the parsed line, without
failing. -/
theorem C8_witness :
    fetchFlexible (fun s => if s = "ok" then some 0 else none) "@@\nok\n!!" false =
      Except.ok (LoadOutcome.ndjson [0]) := by
  rw [C8_loader (fun s => if s = "ok" then some 0 else none) "@@\nok\n!!" false
    (by decide) (by decide)]
  decide

/-- C9 witness: on a well-formed input (non-negative avgWpm) the emitted
row satisfies all four invariants. -/
theorem C9_witness :
    0 < (mkEventRow "a" (some (apiIn "a" 0 0 10 80 0)) (some (apiIn "a" 1000 50 30 100 5))
        none none "weighted").dRaces ∧
    (match (mkEventRow "a" (some (apiIn "a" 0 0 10 80 0)) (some (apiIn "a" 1000 50 30 100 5))
        none none "weighted").wpm with | some w => 0 ≤ w | none => True) ∧
    (match (mkEventRow "a" (some (apiIn "a" 0 0 10 80 0)) (some (apiIn "a" 1000 50 30 100 5))
        none none "weighted").acc with | some a => 0 ≤ a ∧ a ≤ 100 | none => True) ∧
    (match (mkEventRow "a" (some (apiIn "a" 0 0 10 80 0)) (some (apiIn "a" 1000 50 30 100 5))
        none none "weighted").nitrosDelta with | some q => 0 ≤ q | none => True) := by
  have hb : indexByKey [apiIn "a" 0 0 10 80 0] ApiRecord.username "a" =
      some (apiIn "a" 0 0 10 80 0) := by decide
  have hn : indexByKey [apiIn "a" 1000 50 30 100 5] ApiRecord.username "a" =
      some (apiIn "a" 1000 50 30 100 5) := by decide
  have hd : indexByKey ([] : List DataRecord) DataRecord.username "a" = none := by decide
  have hsome : computeEventRow "a" (indexByKey [apiIn "a" 0 0 10 80 0] ApiRecord.username "a")
      (indexByKey [apiIn "a" 1000 50 30 100 5] ApiRecord.username "a")
      (indexByKey ([] : List DataRecord) DataRecord.username "a")
      (indexByKey ([] : List DataRecord) DataRecord.username "a") "weighted" =
      some (mkEventRow "a" (some (apiIn "a" 0 0 10 80 0)) (some (apiIn "a" 1000 50 30 100 5))
        none none "weighted") := by
    rw [hb, hn, hd]
    exact computeEventRow_eq_some_iff.mpr ⟨by norm_num [eventDRaces, safeNumber, apiIn], rfl⟩
  exact C9_row_invariants [apiIn "a" 0 0 10 80 0] [apiIn "a" 1000 50 30 100 5] [] [] "weighted"
    (by intro r hr; rw [List.mem_singleton] at hr; subst hr; norm_num [safeNumber, apiIn])
    _ (mem_computeEvent_rows.mpr ⟨"a", by decide, hsome⟩)

/-- C10 witness: with both API records, a positive typed delta, no Data
before-record but a Data now-record, the emitted row has non-null speed,
accuracy and points, and a null nitro delta. -/
theorem C10_witness :
    ((mkEventRow "a" (some (apiIn "a" 0 0 10 80 0)) (some (apiIn "a" 1000 50 30 100 5))
        none (some (dataIn "a" 0 7)) "weighted").wpm.isSome ↔
      ((some (apiIn "a" 0 0 10 80 0)).isSome ∧ (some (apiIn "a" 1000 50 30 100 5)).isSome)) ∧
    ((mkEventRow "a" (some (apiIn "a" 0 0 10 80 0)) (some (apiIn "a" 1000 50 30 100 5))
        none (some (dataIn "a" 0 7)) "weighted").acc.isSome ↔
      ((some (apiIn "a" 0 0 10 80 0)).isSome ∧ (some (apiIn "a" 1000 50 30 100 5)).isSome ∧
        0 < max 0 (safeNumber (numField (some (apiIn "a" 1000 50 30 100 5)) ApiRecord.typed) -
          safeNumber (numField (some (apiIn "a" 0 0 10 80 0)) ApiRecord.typed)))) ∧
    ((mkEventRow "a" (some (apiIn "a" 0 0 10 80 0)) (some (apiIn "a" 1000 50 30 100 5))
        none (some (dataIn "a" 0 7)) "weighted").points.isSome ↔
      ((mkEventRow "a" (some (apiIn "a" 0 0 10 80 0)) (some (apiIn "a" 1000 50 30 100 5))
        none (some (dataIn "a" 0 7)) "weighted").wpm.isSome ∧
       (mkEventRow "a" (some (apiIn "a" 0 0 10 80 0)) (some (apiIn "a" 1000 50 30 100 5))
        none (some (dataIn "a" 0 7)) "weighted").acc.isSome)) ∧
    ((mkEventRow "a" (some (apiIn "a" 0 0 10 80 0)) (some (apiIn "a" 1000 50 30 100 5))
        none (some (dataIn "a" 0 7)) "weighted").nitrosDelta.isSome ↔
      ((none : Option DataRecord).isSome ∧ (some (dataIn "a" 0 7)).isSome)) := by
  exact C10_nullability "a" (some (apiIn "a" 0 0 10 80 0)) (some (apiIn "a" 1000 50 30 100 5))
    none (some (dataIn "a" 0 7)) "weighted" _
    (computeEventRow_eq_some_iff.mpr ⟨by norm_num [eventDRaces, safeNumber, apiIn], rfl⟩)

/-- C7 witness: a concrete key appears in the union exactly as
characterised, and the concrete event output is sorted. -/
theorem C7_witness :
    "a" ∈ unionKeysEvent [apiIn "A" 0 0 0 0 0] [] [] [] :=
  ((C7_row_assembler [apiIn "A" 0 0 0 0 0] [] [] [] "weighted").2.1 "a").mpr
    ⟨by decide, Or.inl ⟨apiIn "A" 0 0 0 0 0, List.mem_singleton.mpr rfl, by decide⟩⟩
